import Mathlib

/-!
Verification of the presence-and-delivery subsystem of the NovaChat/Gram chat
server against its natural-language specification.

The embedding below translates the relevant JavaScript handlers into pure Lean
functions. Persistent MongoDB state is modelled as a `List Msg` (the message
collection) and explicit user/registry records; each socket or HTTP handler
becomes a function from old state (plus its payload) to new state together with
the events it emits. User ids, socket ids and timestamps are `Nat`.

Two server variants are embedded, following the source files:
- `Gram`: the main `server.js` (Mongo-backed, Socket.IO rooms keyed by user id);
- `Gram.P4`: the variant with an `onlineUsers` map from user id to a single
  socket id, socket-level authentication, block lists and a `deliveredTo` /
  `readBy` representation of message state.
-/

deriving instance DecidableEq for Except

namespace Gram

/-- Message status as stored in the `status` field of the Mongoose
`MessageSchema` (`server.js` line 57): one of `sent`, `delivered`, `read`. -/
inductive Status where
  | sent
  | delivered
  | read
deriving DecidableEq, Repr

/-- Numeric rank of a status in the order `sent < delivered < read` used by the
specification to state monotonicity. -/
def Status.rank : Status → Nat
  | .sent => 0
  | .delivered => 1
  | .read => 2

/-- A document of the `Message` collection (`server.js` lines 48-59): sender,
recipient, content, creation timestamp, edit flag and timestamp, global
soft-delete flag `isDeleted`, per-user soft-delete list `deletedFor`, and
delivery status. The Mongo `_id` is the `id` field. -/
structure Msg where
  id : Nat
  sender : Nat
  recipient : Nat
  content : String
  timestamp : Nat
  isEdited : Bool
  editedAt : Option Nat
  isDeleted : Bool
  deletedFor : List Nat
  status : Status
deriving DecidableEq, Repr

/-- Save a single updated document back into the collection: the document with
the given `_id` is replaced by `f` applied to it (Mongo `_id`s are unique). -/
def updateById (msgs : List Msg) (msgId : Nat) (f : Msg → Msg) : List Msg :=
  msgs.map (fun m => if m.id = msgId then f m else m)

/-- `Message.findById`: first document with the given `_id`. -/
def findById (msgs : List Msg) (msgId : Nat) : Option Msg :=
  msgs.find? (fun m => m.id == msgId)

/-- Payload of the `send_message` socket event (`server.js` line 476): the
client supplies `senderId`, `recipientId` and `content`. -/
structure SendPayload where
  senderId : Nat
  recipientId : Nat
  content : String
deriving DecidableEq, Repr

/-- The new `Message` document built by the `send_message` handler
(`server.js` lines 479-484): sender and recipient are taken verbatim from the
payload and the status starts at `sent`. -/
def mkMessage (p : SendPayload) (id now : Nat) : Msg :=
  { id := id
    sender := p.senderId
    recipient := p.recipientId
    content := p.content
    timestamp := now
    isEdited := false
    editedAt := none
    isDeleted := false
    deletedFor := []
    status := .sent }

/-- An outbound Socket.IO emission: either directly to one socket
(`socket.emit`) or to every socket in a room except the emitting socket
(`socket.to(room).emit`). -/
inductive Emit where
  | toSocket (sid : Nat) (event : String)
  | toRoom (room : Nat) (exceptSid : Nat) (event : String)
  | toRoomAll (room : Nat) (event : String)
deriving DecidableEq, Repr

/-- A connected socket of the main server: `server.js` attaches no identity to
the socket object; only its transport id distinguishes it. -/
structure SockConn where
  sid : Nat
deriving DecidableEq, Repr

/-- Room membership state: pairs `(socketId, roomId)`; `socket.join(userId)`
adds such a pair. -/
abbrev RoomState := List (Nat × Nat)

/-- The sockets that actually receive an emission, given the room state:
`socket.emit` reaches exactly the one socket; `socket.to(room).emit` reaches
every member of the room except the emitting socket; `io.to(room).emit`
reaches every member of the room. -/
def emitTargets (rooms : RoomState) : Emit → List Nat
  | .toSocket sid _ => [sid]
  | .toRoom room ex _ => (rooms.filter (fun rp => rp.2 == room && rp.1 != ex)).map (·.1)
  | .toRoomAll room _ => (rooms.filter (fun rp => rp.2 == room)).map (·.1)

/-- The `join` socket handler (`server.js` lines 464-471): unconditionally adds
the socket to the room named by the client-supplied `userId`; no credential is
checked. (The handler also sets the user document online; that flag is modelled
with the registry of the P4 variant, where presence is actually maintained.) -/
def handleJoin (rooms : RoomState) (c : SockConn) (userId : Nat) : RoomState :=
  (c.sid, userId) :: rooms

/-- The `send_message` socket handler (`server.js` lines 474-494), up to the
status timeout: persists a new message built from the payload, emits
`message_sent` back to the sending socket and `new_message` to the recipient
room. Returns the new collection and the emissions. -/
def handleSendMessage (msgs : List Msg) (c : SockConn) (p : SendPayload)
    (id now : Nat) : List Msg × List Emit :=
  (msgs ++ [mkMessage p id now],
   [.toSocket c.sid "message_sent", .toRoom p.recipientId c.sid "new_message"])

/-- The delayed status update scheduled by `send_message` (`server.js` lines
497-502): one second later the message status is overwritten to `delivered`,
unconditionally — no check of the current status and no check whether the
recipient is online. -/
def deliveredTimeout (msgs : List Msg) (msgId : Nat) : List Msg :=
  updateById msgs msgId (fun m => { m with status := .delivered })

/-- The emissions of the delayed status update (`server.js` lines 500-501):
`message_status` to the sending socket and to the recipient room. -/
def deliveredTimeoutEmits (c : SockConn) (p : SendPayload) : List Emit :=
  [.toSocket c.sid "message_status", .toRoom p.recipientId c.sid "message_status"]

/-- Payload of the `messages_read` socket event (`server.js` line 521). -/
structure ReadPayload where
  readerId : Nat
  messageIds : List Nat
deriving DecidableEq, Repr

/-- The `updateMany` of the `messages_read` handler (`server.js` lines
524-527): every message whose `_id` is in the list and whose recipient is the
claimed reader has its status overwritten to `read`. -/
def messagesReadStore (readerId : Nat) (messageIds : List Nat)
    (msgs : List Msg) : List Msg :=
  msgs.map (fun m =>
    if messageIds.contains m.id && m.recipient == readerId
    then { m with status := .read } else m)

/-- Insertion-ordered deduplication, the `[...new Set(xs)]` idiom of
`server.js` line 531: keeps the first occurrence of every element, in order. -/
def dedupFirst : List Nat → List Nat
  | [] => []
  | x :: xs => x :: (dedupFirst xs).filter (fun y => y != x)

/-- The sender-notification list of the `messages_read` handler (`server.js`
lines 530-534): the distinct senders of ALL messages whose `_id` is in the
payload list — with no filter on whether the reader was the recipient nor on
whether the status actually changed. -/
def messagesReadNotify (messageIds : List Nat) (msgs : List Msg) : List Nat :=
  dedupFirst ((msgs.filter (fun m => messageIds.contains m.id)).map (·.sender))

/-- The whole `messages_read` handler: new collection plus one
`messages_read` emission to each notified sender room. -/
def handleMessagesRead (msgs : List Msg) (c : SockConn) (p : ReadPayload) :
    List Msg × List Emit :=
  (messagesReadStore p.readerId p.messageIds msgs,
   (messagesReadNotify p.messageIds msgs).map
     (fun s => .toRoom s c.sid "messages_read"))

/-- Status of the message with the given id, if present. -/
def statusOf (msgs : List Msg) (msgId : Nat) : Option Status :=
  (findById msgs msgId).map (·.status)

/-- The `$or` clause of the history query (`server.js` lines 242-245): the
message is between the requesting user `uid` and the peer `rid`, in either
direction. -/
def matchPair (uid rid : Nat) (m : Msg) : Bool :=
  (m.sender == uid && m.recipient == rid) || (m.sender == rid && m.recipient == uid)

/-- The visibility clauses of the history query (`server.js` lines 246-247):
`isDeleted: false` and `deletedFor: { $ne: uid }`. -/
def visibleInQuery (uid : Nat) (m : Msg) : Bool :=
  !m.isDeleted && !(m.deletedFor.contains uid)

/-- The filter stage of `GET /api/messages/:recipientId` (`server.js` lines
241-248): messages between the two users that are visible to the requester. -/
def messagesQueryFilter (uid rid : Nat) (msgs : List Msg) : List Msg :=
  msgs.filter (fun m => matchPair uid rid m && visibleInQuery uid m)

/-- The full `GET /api/messages/:recipientId` pipeline (`server.js` lines
241-255): filter, sort by timestamp descending, skip `(page-1)*50`, take 50,
then reverse before responding. -/
def historyQuery (uid rid page : Nat) (msgs : List Msg) : List Msg :=
  (((((messagesQueryFilter uid rid msgs).mergeSort
      (fun a b => b.timestamp ≤ a.timestamp)).drop ((page - 1) * 50)).take 50).reverse)

/-- `PUT /api/message/:id` (`server.js` lines 262-287): a
`findOneAndUpdate({ _id, sender: userId })` that sets `content`, `isEdited`
and `editedAt`; when no document matches (unknown id or a non-sender caller)
the route answers 404 with this error text. On success it returns the updated
collection and the updated document. -/
def editMessage (msgs : List Msg) (msgId userId : Nat) (content : String)
    (now : Nat) : Except String (List Msg × Msg) :=
  match msgs.find? (fun m => m.id == msgId && m.sender == userId) with
  | none => .error "Message not found or not authorized"
  | some m =>
      .ok (msgs.map (fun x => if x.id == msgId && x.sender == userId then
             { x with content := content, isEdited := true, editedAt := some now } else x),
           { m with content := content, isEdited := true, editedAt := some now })

/-- `DELETE /api/message/:id` (`server.js` lines 290-319): 404 when the id is
unknown; when `deleteForEveryone=true` AND the caller is the sender, the
global flag `isDeleted` is set and the recipient room is notified; in EVERY
other case — including a non-sender asking for delete-for-everyone — the
handler falls into the delete-for-me branch and pushes the caller onto
`deletedFor` with no duplicate check, answering success. -/
def deleteMessage (msgs : List Msg) (msgId userId : Nat) (forEveryone : Bool) :
    Except String (List Msg × List Emit) :=
  match findById msgs msgId with
  | none => .error "Message not found"
  | some m =>
      if forEveryone && m.sender == userId then
        .ok (updateById msgs msgId (fun x => { x with isDeleted := true }),
             [.toRoomAll m.recipient "message_deleted"])
      else
        .ok (updateById msgs msgId
               (fun x => { x with deletedFor := x.deletedFor ++ [userId] }), [])

end Gram

namespace Gram.P4

/-- A JavaScript `Map` over `Nat` keys modelled as an association list:
`Map.get` returns the value at the key, if present. -/
def alistGet (k : Nat) (l : List (Nat × Nat)) : Option Nat :=
  (l.find? (fun p => p.1 == k)).map (·.2)

/-- `Map.set`: replaces the value in place when the key is present, otherwise
appends the new binding. -/
def alistSet (k v : Nat) (l : List (Nat × Nat)) : List (Nat × Nat) :=
  if l.any (fun p => p.1 == k) then l.map (fun p => if p.1 == k then (k, v) else p)
  else l ++ [(k, v)]

/-- `Map.delete`: removes the binding for the key. -/
def alistDelete (k : Nat) (l : List (Nat × Nat)) : List (Nat × Nat) :=
  l.filter (fun p => p.1 != k)

/-- A `User` document of the P4 variant, restricted to the fields the
presence-and-delivery code touches: `blockedUsers`, `isOnline`, `lastSeen`. -/
structure P4User where
  id : Nat
  blockedUsers : List Nat
  isOnline : Bool
  lastSeen : Option Nat
deriving DecidableEq, Repr

/-- A `Message` document of the P4 variant, restricted to the fields the
`sendMessage` handler sets: sender, recipient, content and the `deliveredTo`
list initialised to the sender alone. -/
structure P4Msg where
  id : Nat
  sender : Nat
  recipient : Nat
  content : String
  deliveredTo : List Nat
deriving DecidableEq, Repr

/-- In-memory connection/presence state of the P4 variant: the set of live
transport sockets, the `socket.userId` assignments made by the `authenticate`
handler, the global `onlineUsers` map from user id to a SINGLE socket id, and
the `User` documents. -/
structure RegState where
  connected : List Nat
  socketAuth : List (Nat × Nat)
  onlineUsers : List (Nat × Nat)
  users : List P4User
deriving DecidableEq, Repr

/-- Transport accepts a new socket (`io.on(connection)`): the socket is live
but carries no user identity yet. -/
def connect (st : RegState) (sid : Nat) : RegState :=
  { st with connected := st.connected ++ [sid] }

/-- The successful path of the `authenticate` socket handler (P4 lines
962-986): sets `socket.userId`, puts `onlineUsers.set(userId, socket.id)` —
overwriting any previous socket of the same user — and marks the `User`
document online. -/
def authenticate (st : RegState) (sid uid : Nat) : RegState :=
  { st with
    socketAuth := alistSet sid uid st.socketAuth
    onlineUsers := alistSet uid sid st.onlineUsers
    users := st.users.map (fun u => if u.id = uid then { u with isOnline := true } else u) }

/-- The `disconnect` handler (P4 lines 1170-1185): the socket leaves the
transport; if it had authenticated as some user, that user's `onlineUsers`
entry is deleted — whether or not the user has another live socket — and the
`User` document is marked offline with `lastSeen` stamped `now`. -/
def disconnect (st : RegState) (sid now : Nat) : RegState :=
  let st1 := { st with connected := st.connected.filter (fun s => s != sid) }
  match alistGet sid st.socketAuth with
  | none => st1
  | some uid =>
      { st1 with
        socketAuth := st1.socketAuth.filter (fun p => p.1 != sid)
        onlineUsers := alistDelete uid st1.onlineUsers
        users := st1.users.map (fun u =>
          if u.id = uid then { u with isOnline := false, lastSeen := some now } else u) }

/-- Online check as the P4 code performs it: `onlineUsers.get(uid)` /
`onlineUsers.has(uid)`. -/
def isOnlineReg (st : RegState) (uid : Nat) : Bool :=
  (alistGet uid st.onlineUsers).isSome

/-- The user's actual live connection set: sockets that are connected and
authenticated as this user. -/
def liveConnections (st : RegState) (uid : Nat) : List Nat :=
  st.connected.filter (fun sid => alistGet sid st.socketAuth == some uid)

/-- The sockets that receive an event routed through the `onlineUsers` map in
the P4 variant: both the new-message push (`io.to(onlineUsers.get(recipientId))
.emit('newMessage', ...)`, P4 lines 1039-1044) and the read-receipt
notification to the sender (`io.to(onlineUsers.get(message.sender))
.emit('messageRead', ...)`, P4 lines 1158-1160) target at most the one socket
recorded in the map. -/
def deliveryTargets (st : RegState) (uid : Nat) : List Nat :=
  match alistGet uid st.onlineUsers with
  | some sid => [sid]
  | none => []

/-- The `typingStart` handler of the P4 variant (P4 lines 1132-1137): when the
recipient has an `onlineUsers` entry, `userTyping` is emitted with
`socket.to(recipientId)` — the recipient's user-id ROOM, which every
authenticated socket of that user joined (`socket.join(decoded.userId)`, P4
line 980) — so it reaches every room member except the emitting socket, not
just the socket in the map. Returns the receiving sockets given the room
membership `rooms` (pairs of socket id and room id). -/
def p4TypingStart (st : RegState) (rooms : List (Nat × Nat))
    (emitterSid recipientId : Nat) : List Nat :=
  if (alistGet recipientId st.onlineUsers).isSome then
    (rooms.filter (fun rp => rp.2 == recipientId && rp.1 != emitterSid)).map (·.1)
  else []

/-- The `sendMessage` socket handler of the P4 variant up to persistence (P4
lines 1008-1030): the two block checks run BEFORE the message is created, each
failing with its own error text; only when neither party blocks the other is
the message saved (with `deliveredTo` initialised to the sender). -/
def p4SendMessage (msgs : List P4Msg) (sender recipient : P4User)
    (content : String) (id : Nat) : Except String (List P4Msg) :=
  if sender.blockedUsers.contains recipient.id then
    .error "You have blocked this user"
  else if recipient.blockedUsers.contains sender.id then
    .error "You are blocked by this user"
  else
    .ok (msgs ++ [⟨id, sender.id, recipient.id, content, [sender.id]⟩])

/-- Fixture: user 9 with no blocks, initially offline. -/
def u9 : P4User := ⟨9, [], false, none⟩

/-- Fixture: initial registry state holding only user 9. -/
def st0 : RegState := ⟨[], [], [], [u9]⟩

/-- Fixture: user 9 connects a first device (socket 1) and authenticates. -/
def stA : RegState := authenticate (connect st0 1) 1 9

/-- Fixture: user 9 additionally connects a second device (socket 2) and
authenticates it too; both sockets are now live. -/
def stB : RegState := authenticate (connect stA 2) 2 9

/-- Fixture: the first device (socket 1) disconnects at time 50 while socket 2
is still live. -/
def stC : RegState := disconnect stB 1 50

/-- Fixture: room membership in the `stB` scenario — both of user 9's sockets
joined room 9 when they authenticated (`socket.join(decoded.userId)`, P4 line
980). -/
def roomsB : List (Nat × Nat) := [(1, 9), (2, 9)]

/-- Fixture: user 1 who has blocked user 2. -/
def uBlk1 : P4User := ⟨1, [2], false, none⟩

/-- Fixture: user 2 with an empty block list. -/
def uPlain2 : P4User := ⟨2, [], false, none⟩

/-- Fixture: user 1 with an empty block list. -/
def uPlain1 : P4User := ⟨1, [], false, none⟩

/-- Fixture: user 2 who has blocked user 1. -/
def uBlk2 : P4User := ⟨2, [1], false, none⟩

end Gram.P4

namespace Gram

/-- Concrete fixture: message 7, sent by user 1 to user 2 at time 10. -/
def mX : Msg := mkMessage ⟨1, 2, "x"⟩ 7 10

/-- Fixture `mX` after user 2 soft-deletes it once. -/
def mXdel : Msg := { mX with deletedFor := [2] }

/-- Fixture `mX` after user 2 soft-deletes it twice. -/
def mXdel2 : Msg := { mX with deletedFor := [2, 2] }

/-- Fixture `mX` once its status has reached `read`. -/
def mXread : Msg := { mX with status := .read }

/-- Fixture `mX` after its sender edits the content to `"y"` at time 20. -/
def mXed : Msg := { mX with content := "y", isEdited := true, editedAt := some 20 }

/-- Looking up a freshly appended document succeeds when no earlier document
carries its id. -/
lemma findById_append_fresh (msgs : List Msg) (m : Msg)
    (h : ∀ x ∈ msgs, x.id ≠ m.id) :
    findById (msgs ++ [m]) m.id = some m := by
  induction msgs with
  | nil => simp [findById]
  | cons a t ih =>
      have ha : (a.id == m.id) = false :=
        beq_eq_false_iff_ne.mpr (h a (List.mem_cons_self a t))
      simp only [findById, List.cons_append, List.find?_cons, ha]
      exact ih (fun x hx => h x (List.mem_cons_of_mem a hx))

/-- Updating one document by id commutes with looking it up, for id-preserving
updates. -/
lemma findById_updateById (msgs : List Msg) (msgId : Nat) (f : Msg → Msg)
    (hf : ∀ x, (f x).id = x.id) :
    findById (updateById msgs msgId f) msgId = (findById msgs msgId).map f := by
  induction msgs with
  | nil => simp [findById, updateById]
  | cons a t ih =>
      by_cases ha : a.id = msgId
      · have hfa : ((f a).id == msgId) = true := by simp [hf, ha]
        simp [findById, updateById, List.find?_cons, ha, hfa]
      · have ha2 : (a.id == msgId) = false := beq_eq_false_iff_ne.mpr ha
        simp only [findById, updateById, List.map_cons, if_neg ha, List.find?_cons, ha2]
        simpa [findById, updateById] using ih

/-- An update that does not touch the `isDeleted` field leaves every
document's `isDeleted` field as it was. -/
lemma map_isDeleted_updateById (msgs : List Msg) (msgId : Nat) (f : Msg → Msg)
    (hf : ∀ x, (f x).isDeleted = x.isDeleted) :
    (updateById msgs msgId f).map (·.isDeleted) = msgs.map (·.isDeleted) := by
  rw [updateById, List.map_map]
  apply List.map_congr_left
  intro a _
  by_cases ha : a.id = msgId <;> simp [Function.comp, ha, hf]

/-- After appending a fresh message, the delayed status overwrite leaves it
with status `delivered`. -/
lemma statusOf_deliveredTimeout_fresh (msgs : List Msg) (m : Msg)
    (h : ∀ x ∈ msgs, x.id ≠ m.id) :
    statusOf (deliveredTimeout (msgs ++ [m]) m.id) m.id = some .delivered := by
  have h1 : findById (deliveredTimeout (msgs ++ [m]) m.id) m.id
      = (findById (msgs ++ [m]) m.id).map (fun x => { x with status := .delivered }) :=
    findById_updateById _ _ _ (fun x => rfl)
  rw [statusOf, h1, findById_append_fresh msgs m h]
  rfl

/-- Everything a page of the history endpoint returns came from the store and
passed both the conversation filter and the visibility filter. -/
lemma mem_of_mem_historyQuery {uid rid page : Nat} {msgs : List Msg} {x : Msg}
    (hx : x ∈ historyQuery uid rid page msgs) :
    x ∈ msgs ∧ matchPair uid rid x = true ∧ visibleInQuery uid x = true := by
  rw [historyQuery, List.mem_reverse] at hx
  have hx2 := List.mem_of_mem_take hx
  have hx3 := List.mem_of_mem_drop hx2
  rw [List.mem_mergeSort] at hx3
  rw [messagesQueryFilter, List.mem_filter] at hx3
  obtain ⟨hm, hp⟩ := hx3
  rw [Bool.and_eq_true] at hp
  exact ⟨hm, hp.1, hp.2⟩

/-- C1. The code has no strictly-greater guard: the `send_message` handler
schedules an unconditional `status := delivered` overwrite one second after the
send, and when the recipient's `messages_read` arrives within that second the
stored status regresses from `read` back to `delivered`. Concretely: message 7
from user 1 to user 2 is created `sent`, user 2 reads it (status `read`), then
the pending timeout fires and the status drops to `delivered`, a strictly
smaller status. -/
theorem c1_status_downgrade :
    let st0 := [mkMessage ⟨1, 2, "hi"⟩ 7 10]
    let st1 := messagesReadStore 2 [7] st0
    let st2 := deliveredTimeout st1 7
    statusOf st1 7 = some .read ∧
    statusOf st2 7 = some .delivered ∧
    Status.rank .delivered < Status.rank .read := by
  decide

/-- C2 counterexample. User 1 sends message 7 to user 2 while user 2 is
offline (no socket has joined any room, so the `new_message` emission reaches
nobody); the claim states the status then remains `sent`, but the delayed
update of `send_message` marks it `delivered` anyway. -/
theorem c2_offline_marked_delivered_cex :
    emitTargets [] (Emit.toRoom 2 5 "new_message") = [] ∧
    statusOf (deliveredTimeout (handleSendMessage [] ⟨5⟩ ⟨1, 2, "hi"⟩ 7 10).1 7) 7
      = some .delivered := by
  decide

/-- C2 amended. For a send with a fresh message id while the recipient is
offline (no socket in the recipient's room): the message is persisted with
status `sent`; a `new_message` event is emitted to the recipient's room but
reaches no socket; the delayed update nevertheless advances the status to
`delivered` — it never consults the recipient's online state; and the message
is present in the recipient's history query, which is the only mechanism by
which an offline recipient ever receives it (store-and-forward). -/
theorem c2_send_offline_behavior (msgs : List Msg) (c : SockConn) (p : SendPayload)
    (id now : Nat) (rooms : RoomState)
    (hfresh : ∀ m ∈ msgs, m.id ≠ id)
    (hoffline : ∀ rp ∈ rooms, rp.2 ≠ p.recipientId) :
    (handleSendMessage msgs c p id now).1 = msgs ++ [mkMessage p id now] ∧
    (mkMessage p id now).status = .sent ∧
    Emit.toRoom p.recipientId c.sid "new_message" ∈ (handleSendMessage msgs c p id now).2 ∧
    emitTargets rooms (.toRoom p.recipientId c.sid "new_message") = [] ∧
    statusOf (deliveredTimeout (handleSendMessage msgs c p id now).1 id) id
      = some .delivered ∧
    mkMessage p id now ∈ messagesQueryFilter p.recipientId p.senderId
      (handleSendMessage msgs c p id now).1 := by
  refine ⟨rfl, rfl, by simp [handleSendMessage], ?_, ?_, ?_⟩
  · rw [emitTargets]
    have hnil : rooms.filter (fun rp => rp.2 == p.recipientId && rp.1 != c.sid) = [] := by
      rw [List.filter_eq_nil_iff]
      intro rp hrp
      simp [hoffline rp hrp]
    rw [hnil]
    rfl
  · exact statusOf_deliveredTimeout_fresh msgs (mkMessage p id now) hfresh
  · rw [messagesQueryFilter, List.mem_filter]
    refine ⟨List.mem_append_right msgs (List.mem_singleton.mpr rfl), ?_⟩
    simp [mkMessage, matchPair, visibleInQuery]

/-- C2 witness: the amended statement evaluated at the concrete offline send
of `c2_offline_marked_delivered_cex`. -/
theorem c2_send_offline_behavior_witness :
    (handleSendMessage [] ⟨5⟩ ⟨1, 2, "hi"⟩ 7 10).1 = [] ++ [mkMessage ⟨1, 2, "hi"⟩ 7 10] ∧
    (mkMessage ⟨1, 2, "hi"⟩ 7 10).status = .sent ∧
    Emit.toRoom 2 5 "new_message" ∈ (handleSendMessage [] ⟨5⟩ ⟨1, 2, "hi"⟩ 7 10).2 ∧
    emitTargets [] (.toRoom 2 5 "new_message") = [] ∧
    statusOf (deliveredTimeout (handleSendMessage [] ⟨5⟩ ⟨1, 2, "hi"⟩ 7 10).1 7) 7
      = some .delivered ∧
    mkMessage ⟨1, 2, "hi"⟩ 7 10 ∈ messagesQueryFilter 2 1
      (handleSendMessage [] ⟨5⟩ ⟨1, 2, "hi"⟩ 7 10).1 :=
  c2_send_offline_behavior [] ⟨5⟩ ⟨1, 2, "hi"⟩ 7 10 []
    (by intro m hm; cases hm) (by intro rp hrp; cases hrp)

/-- C3 counterexample. Message 7 was sent by user 1; user 2 (the recipient,
not the sender) requests delete-for-everyone. The claim states the request
fails with an authorization error and leaves the record unchanged; the code
instead answers success, leaves the global flag unset, and grows the per-user
soft-delete set by the requester. -/
theorem c3_nonsender_global_delete_cex :
    deleteMessage [mX] 7 2 true = .ok ([mXdel], []) ∧
    mXdel.isDeleted = false ∧ [mXdel] ≠ [mX] := by
  decide

/-- C3 amended. A delete-for-everyone request by a non-sender does not fail:
it silently falls back to the delete-for-me branch, answering success with the
requester appended to the target's soft-delete set, while every document's
global-delete flag is left as it was. -/
theorem c3_nonsender_delete_falls_back (msgs : List Msg) (msgId userId : Nat) (m : Msg)
    (hfind : findById msgs msgId = some m) (hns : m.sender ≠ userId) :
    deleteMessage msgs msgId userId true =
      .ok (updateById msgs msgId
            (fun x => { x with deletedFor := x.deletedFor ++ [userId] }), []) ∧
    (updateById msgs msgId
        (fun x => { x with deletedFor := x.deletedFor ++ [userId] })).map (·.isDeleted)
      = msgs.map (·.isDeleted) ∧
    findById (updateById msgs msgId
        (fun x => { x with deletedFor := x.deletedFor ++ [userId] })) msgId
      = some { m with deletedFor := m.deletedFor ++ [userId] } := by
  have hs : (m.sender == userId) = false := beq_eq_false_iff_ne.mpr hns
  refine ⟨?_, ?_, ?_⟩
  · rw [deleteMessage, hfind]
    simp [hs]
  · exact map_isDeleted_updateById msgs msgId
      (fun x => { x with deletedFor := x.deletedFor ++ [userId] }) (fun x => rfl)
  · rw [findById_updateById msgs msgId
      (fun x => { x with deletedFor := x.deletedFor ++ [userId] }) (fun x => rfl), hfind]
    rfl

/-- C3 witness: the amended statement at the concrete input of the
counterexample (message 7 sent by user 1, delete-for-everyone requested by
user 2). -/
theorem c3_nonsender_delete_falls_back_witness :
    deleteMessage [mX] 7 2 true =
      .ok (updateById [mX] 7
            (fun x => { x with deletedFor := x.deletedFor ++ [2] }), []) ∧
    (updateById [mX] 7
        (fun x => { x with deletedFor := x.deletedFor ++ [2] })).map (·.isDeleted)
      = [mX].map (·.isDeleted) ∧
    findById (updateById [mX] 7
        (fun x => { x with deletedFor := x.deletedFor ++ [2] })) 7
      = some { mX with deletedFor := mX.deletedFor ++ [2] } :=
  c3_nonsender_delete_falls_back [mX] 7 2 mX (by decide) (by decide)

end Gram

namespace Gram.P4

/-- Setting a key in a JS-style map makes lookup of that key return the new
value, whether or not the key was present before. -/
lemma alistGet_alistSet (k v : Nat) (l : List (Nat × Nat)) :
    alistGet k (alistSet k v l) = some v := by
  rw [alistSet]
  by_cases h : l.any (fun p => p.1 == k) = true
  · rw [if_pos h, alistGet]
    have hfind : ∀ (t : List (Nat × Nat)), t.any (fun p => p.1 == k) = true →
        (t.map (fun p => if p.1 == k then (k, v) else p)).find? (fun p => p.1 == k)
          = some (k, v) := by
      intro t
      induction t with
      | nil => intro h2; cases h2
      | cons a t ih =>
          intro h2
          rw [List.map_cons]
          by_cases hak : a.1 = k
          · rw [if_pos (by simpa using hak), List.find?_cons]
            have hkk : (((k, v) : Nat × Nat).1 == k) = true := by simp
            rw [hkk]
          · have ha2 : (a.1 == k) = false := by simpa using hak
            rw [if_neg (by simpa using hak), List.find?_cons, ha2]
            exact ih (by simpa [List.any_cons, ha2] using h2)
    rw [hfind l h]
    rfl
  · rw [if_neg h, alistGet]
    have h2 : l.any (fun p => p.1 == k) = false := Bool.eq_false_iff.mpr h
    have hfind2 : ∀ (t : List (Nat × Nat)), t.any (fun p => p.1 == k) = false →
        (t ++ [(k, v)]).find? (fun p => p.1 == k) = some (k, v) := by
      intro t
      induction t with
      | nil =>
          intro _
          have hkk : (((k, v) : Nat × Nat).1 == k) = true := by simp
          rw [List.nil_append, List.find?_cons, hkk]
      | cons a t ih =>
          intro h3
          rw [List.any_cons, Bool.or_eq_false_iff] at h3
          rw [List.cons_append, List.find?_cons, h3.1]
          exact ih h3.2
    rw [hfind2 l h2]
    rfl

/-- Deleting a key from a JS-style map makes lookup of that key fail. -/
lemma alistGet_alistDelete (k : Nat) (l : List (Nat × Nat)) :
    alistGet k (alistDelete k l) = none := by
  rw [alistGet, alistDelete]
  have hnone : (l.filter (fun p => p.1 != k)).find? (fun p => p.1 == k) = none := by
    rw [List.find?_eq_none]
    intro x hx
    have h2 := (List.mem_filter.mp hx).2
    simpa using h2
  rw [hnone]
  rfl

end Gram.P4

namespace Gram

/-- C5 counterexample. User 9 authenticates two devices (sockets 1 and 2);
socket 1 then disconnects. Socket 2 is still a live authenticated connection
of user 9, yet the registry reports the user offline — `isOnline(U)` is not
equivalent to U's live connection set being non-empty. -/
theorem c5_multi_device_offline_cex :
    P4.liveConnections P4.stC 9 = [2] ∧
    P4.isOnlineReg P4.stC 9 = false ∧
    ((P4.stC.users.find? (fun u => u.id == 9)).map (·.isOnline)) = some false := by
  decide

/-- C5 amended. Immediately after `authenticate`, the user is online. After a
disconnect of ANY authenticated socket of user U — not only the last one —
`isOnline(U)` is false and U's `lastSeen` is stamped with the current time;
with several live devices this marks the user offline while another
connection of theirs is still live, so the claimed equivalence between
`isOnline(U)` and a non-empty connection set does not hold. -/
theorem c5_presence_transitions :
    (∀ (st : P4.RegState) (sid uid : Nat),
        P4.isOnlineReg (P4.authenticate st sid uid) uid = true) ∧
    (∀ (st : P4.RegState) (sid uid now : Nat),
        P4.alistGet sid st.socketAuth = some uid →
        P4.isOnlineReg (P4.disconnect st sid now) uid = false ∧
        (∀ u ∈ (P4.disconnect st sid now).users, u.id = uid →
          u.isOnline = false ∧ u.lastSeen = some now)) := by
  constructor
  · intro st sid uid
    simp [P4.isOnlineReg, P4.authenticate, P4.alistGet_alistSet]
  · intro st sid uid now hauth
    constructor
    · simp [P4.disconnect, hauth, P4.isOnlineReg, P4.alistGet_alistDelete]
    · intro u hu hid
      simp only [P4.disconnect, hauth] at hu
      obtain ⟨y, hy, hgy⟩ := List.mem_map.mp hu
      by_cases hyid : y.id = uid
      · rw [if_pos hyid] at hgy
        rw [← hgy]
        exact ⟨rfl, rfl⟩
      · rw [if_neg hyid] at hgy
        exact absurd (hgy ▸ hid) hyid

/-- C5 witness: the amended statement at the concrete two-device scenario of
the counterexample. -/
theorem c5_presence_transitions_witness :
    P4.isOnlineReg (P4.authenticate P4.st0 1 9) 9 = true ∧
    P4.isOnlineReg (P4.disconnect P4.stB 1 50) 9 = false ∧
    (∀ u ∈ (P4.disconnect P4.stB 1 50).users, u.id = 9 →
      u.isOnline = false ∧ u.lastSeen = some 50) :=
  ⟨c5_presence_transitions.1 P4.st0 1 9,
   (c5_presence_transitions.2 P4.stB 1 9 50 (by decide)).1,
   (c5_presence_transitions.2 P4.stB 1 9 50 (by decide)).2⟩

/-- C6 counterexample. User 9 has two live authenticated connections (sockets
1 and 2), but the `onlineUsers` map holds only the most recent one: socket 1's
map registration has been displaced by socket 2's, and the new-message push —
routed through the map — is delivered to socket 2 alone, so not every live
connection receives every event addressed to the user. (A room-routed typing
event, by contrast, still reaches both sockets.) -/
theorem c6_second_device_displaces_cex :
    P4.liveConnections P4.stB 9 = [1, 2] ∧
    P4.deliveryTargets P4.stB 9 = [2] ∧
    ¬ (1 ∈ P4.deliveryTargets P4.stB 9) ∧
    P4.alistGet 9 P4.stB.onlineUsers = some 2 ∧
    P4.p4TypingStart P4.stB P4.roomsB 5 9 = [1, 2] := by
  decide

/-- C6 amended. The `onlineUsers` registry binds each user to a single socket:
authenticating a further connection for the same user overwrites — displaces —
the earlier connection's map entry, and the events routed through that map
(the new-message push, and likewise the read-receipt notification to the
sender) are delivered only to the most recently authenticated socket, so an
earlier still-live connection no longer receives them. Events routed through
the user-id room instead of the map — typing indicators — still reach every
socket joined to the user's room, including a displaced one. -/
theorem c6_single_connection_routing :
    (∀ (st : P4.RegState) (sid uid : Nat),
        P4.alistGet uid (P4.authenticate st sid uid).onlineUsers = some sid ∧
        P4.deliveryTargets (P4.authenticate st sid uid) uid = [sid]) ∧
    (∀ (st : P4.RegState) (sid1 sid2 uid : Nat), sid1 ≠ sid2 →
        P4.deliveryTargets (P4.authenticate (P4.authenticate st sid1 uid) sid2 uid) uid
          = [sid2] ∧
        ¬ (sid1 ∈ P4.deliveryTargets
            (P4.authenticate (P4.authenticate st sid1 uid) sid2 uid) uid)) ∧
    (∀ (st : P4.RegState) (rooms : List (Nat × Nat)) (emitterSid recipientId sid : Nat),
        P4.isOnlineReg st recipientId = true →
        (sid, recipientId) ∈ rooms → sid ≠ emitterSid →
        sid ∈ P4.p4TypingStart st rooms emitterSid recipientId) := by
  refine ⟨?_, ?_, ?_⟩
  · intro st sid uid
    refine ⟨?_, ?_⟩
    · simp [P4.authenticate, P4.alistGet_alistSet]
    · simp [P4.deliveryTargets, P4.authenticate, P4.alistGet_alistSet]
  · intro st sid1 sid2 uid h
    have ht : P4.deliveryTargets (P4.authenticate (P4.authenticate st sid1 uid) sid2 uid) uid
        = [sid2] := by
      simp [P4.deliveryTargets, P4.authenticate, P4.alistGet_alistSet]
    refine ⟨ht, ?_⟩
    rw [ht]
    simp [h]
  · intro st rooms emitterSid recipientId sid hon hmem hne
    have hon2 : (P4.alistGet recipientId st.onlineUsers).isSome = true := hon
    rw [P4.p4TypingStart, if_pos hon2]
    exact List.mem_map.mpr
      ⟨(sid, recipientId), List.mem_filter.mpr ⟨hmem, by simp [hne]⟩, rfl⟩

/-- C6 witness: the amended statement at the concrete two-device scenario —
the map holds socket 1 after its registration, socket 2 displaces it, the
map-routed delivery excludes socket 1, yet the room-routed typing event still
reaches the displaced socket 1. -/
theorem c6_single_connection_routing_witness :
    P4.alistGet 9 (P4.authenticate P4.st0 1 9).onlineUsers = some 1 ∧
    P4.deliveryTargets (P4.authenticate (P4.authenticate P4.st0 1 9) 2 9) 9 = [2] ∧
    ¬ (1 ∈ P4.deliveryTargets (P4.authenticate (P4.authenticate P4.st0 1 9) 2 9) 9) ∧
    1 ∈ P4.p4TypingStart P4.stB P4.roomsB 5 9 :=
  ⟨(c6_single_connection_routing.1 P4.st0 1 9).1,
   (c6_single_connection_routing.2.1 P4.st0 1 2 9 (by decide)).1,
   (c6_single_connection_routing.2.1 P4.st0 1 2 9 (by decide)).2,
   c6_single_connection_routing.2.2 P4.stB P4.roomsB 5 9 1 (by decide) (by decide) (by decide)⟩

/-- C7 counterexample. User 1 has blocked user 2 in one scenario; user 2 has
blocked user 1 in the other. The failures surfaced to the sender are two
DIFFERENT error messages, each naming which side blocked — not the generic
failure the claim requires. -/
theorem c7_block_error_reveals_direction_cex :
    P4.p4SendMessage [] P4.uBlk1 P4.uPlain2 "hi" 7
      = Except.error "You have blocked this user" ∧
    P4.p4SendMessage [] P4.uPlain1 P4.uBlk2 "hi" 7
      = Except.error "You are blocked by this user" ∧
    ("You have blocked this user" : String) ≠ "You are blocked by this user" := by
  decide

/-- C7 amended. When either party has blocked the other, the send does fail
before any message is persisted (the result is an error and never a new
store), but the error surfaced to the sender is direction-specific rather
than generic: "You have blocked this user" when the sender blocked the
recipient, "You are blocked by this user" when the recipient blocked the
sender. -/
theorem c7_blocked_send_fails (msgs : List P4.P4Msg) (sender recipient : P4.P4User)
    (content : String) (id : Nat)
    (hb : sender.blockedUsers.contains recipient.id = true ∨
          recipient.blockedUsers.contains sender.id = true) :
    (∃ e, P4.p4SendMessage msgs sender recipient content id = Except.error e) ∧
    (∀ out, P4.p4SendMessage msgs sender recipient content id ≠ Except.ok out) := by
  have he : ∃ e, P4.p4SendMessage msgs sender recipient content id = Except.error e := by
    rcases hb with h | h
    · exact ⟨"You have blocked this user", by rw [P4.p4SendMessage, if_pos h]⟩
    · by_cases h1 : sender.blockedUsers.contains recipient.id = true
      · exact ⟨"You have blocked this user", by rw [P4.p4SendMessage, if_pos h1]⟩
      · exact ⟨"You are blocked by this user",
          by rw [P4.p4SendMessage, if_neg h1, if_pos h]⟩
  refine ⟨he, ?_⟩
  intro out hout
  rcases he with ⟨e, he2⟩
  rw [hout] at he2
  cases he2

/-- C7 witness: the amended statement where user 1 blocked user 2. -/
theorem c7_blocked_send_fails_witness :
    (∃ e, P4.p4SendMessage [] P4.uBlk1 P4.uPlain2 "hi" 7 = Except.error e) ∧
    (∀ out, P4.p4SendMessage [] P4.uBlk1 P4.uPlain2 "hi" 7 ≠ Except.ok out) :=
  c7_blocked_send_fails [] P4.uBlk1 P4.uPlain2 "hi" 7 (Or.inl (by decide))

end Gram

namespace Gram

/-- Deduplication preserves membership. -/
lemma mem_dedupFirst (x : Nat) (l : List Nat) : x ∈ dedupFirst l ↔ x ∈ l := by
  induction l with
  | nil => rfl
  | cons a t ih =>
      rw [dedupFirst]
      by_cases hxa : x = a
      · subst hxa
        simp
      · simp [hxa, List.mem_filter, ih]

/-- C4 counterexample. Message 7 (sender 1, recipient 2): a forged receipt by
user 3 leaves the store untouched — but the sender is STILL notified with a
`messages_read` event; and a genuine receipt by recipient 2 for a message
whose status is already `read` changes nothing yet notifies the sender again.
The claim requires no notification in either situation. -/
theorem c4_forged_receipt_notifies_cex :
    (handleMessagesRead [mX] ⟨5⟩ ⟨3, [7]⟩).1 = [mX] ∧
    (handleMessagesRead [mX] ⟨5⟩ ⟨3, [7]⟩).2 = [.toRoom 1 5 "messages_read"] ∧
    (handleMessagesRead [mXread] ⟨5⟩ ⟨2, [7]⟩).1 = [mXread] ∧
    (handleMessagesRead [mXread] ⟨5⟩ ⟨2, [7]⟩).2 = [.toRoom 1 5 "messages_read"] := by
  decide

/-- C4 amended. The stored-state half of the claim holds: the `updateMany`
filter `{recipient: readerId}` means a reader who is recipient of none of the
listed messages changes nothing, and a listed message whose recipient is the
reader is overwritten to `read`. The notification half fails: the handler
notifies the sender of EVERY listed message — also on forged receipts and
also when the status was already `read`. -/
theorem c4_read_receipt_behavior (msgs : List Msg) (c : SockConn) (p : ReadPayload) :
    ((∀ m ∈ msgs, m.id ∈ p.messageIds → m.recipient ≠ p.readerId) →
        (handleMessagesRead msgs c p).1 = msgs) ∧
    (∀ m ∈ msgs, m.id ∈ p.messageIds → m.recipient = p.readerId →
        { m with status := .read } ∈ (handleMessagesRead msgs c p).1) ∧
    (∀ m ∈ msgs, m.id ∈ p.messageIds →
        Emit.toRoom m.sender c.sid "messages_read" ∈ (handleMessagesRead msgs c p).2) := by
  refine ⟨?_, ?_, ?_⟩
  · intro h
    show messagesReadStore p.readerId p.messageIds msgs = msgs
    rw [messagesReadStore]
    have hcong : msgs.map (fun m =>
        if p.messageIds.contains m.id && m.recipient == p.readerId
        then { m with status := Status.read } else m) = msgs.map id := by
      apply List.map_congr_left
      intro m hm
      by_cases hid : m.id ∈ p.messageIds
      · have hne := h m hm hid
        simp [hne]
      · simp [hid]
    rw [hcong, List.map_id]
  · intro m hm hid hrec
    have hc : p.messageIds.contains m.id = true := by simpa using hid
    have hg : (if p.messageIds.contains m.id && m.recipient == p.readerId
        then { m with status := Status.read } else m) = { m with status := Status.read } := by
      simp [hid, hrec]
    show { m with status := Status.read } ∈ messagesReadStore p.readerId p.messageIds msgs
    rw [messagesReadStore]
    exact hg ▸ List.mem_map_of_mem _ hm
  · intro m hm hid
    have hs : m.sender ∈ messagesReadNotify p.messageIds msgs := by
      rw [messagesReadNotify, mem_dedupFirst]
      exact List.mem_map_of_mem _ (List.mem_filter.mpr ⟨hm, by simpa using hid⟩)
    exact List.mem_map_of_mem _ hs

/-- C4 witness: the amended statement at the concrete inputs of the
counterexample (forged reader 3, genuine recipient 2, message 7 from 1 to 2). -/
theorem c4_read_receipt_behavior_witness :
    (handleMessagesRead [mX] ⟨5⟩ ⟨3, [7]⟩).1 = [mX] ∧
    { mX with status := Status.read } ∈ (handleMessagesRead [mX] ⟨5⟩ ⟨2, [7]⟩).1 ∧
    Emit.toRoom 1 5 "messages_read" ∈ (handleMessagesRead [mX] ⟨5⟩ ⟨3, [7]⟩).2 :=
  ⟨(c4_read_receipt_behavior [mX] ⟨5⟩ ⟨3, [7]⟩).1 (by decide),
   (c4_read_receipt_behavior [mX] ⟨5⟩ ⟨2, [7]⟩).2.1 mX (by decide) (by decide) (by decide),
   (c4_read_receipt_behavior [mX] ⟨5⟩ ⟨3, [7]⟩).2.2 mX (by decide) (by decide)⟩

/-- C8. An edit succeeds exactly through the `findOneAndUpdate({_id, sender})`
filter: on success the matched document was sent by the editor and the updated
document differs only in `content`, `isEdited` and `editedAt` — sender,
recipient, creation timestamp and status are those of the original. When no
document matches (unknown id OR non-sender editor) the route fails with its
combined not-found/not-authorized error and nothing is updated. -/
theorem c8_edit_authorization_and_frame (msgs : List Msg) (msgId userId : Nat)
    (content : String) (now : Nat) :
    (∀ st2 m2, editMessage msgs msgId userId content now = .ok (st2, m2) →
        ∃ m, m ∈ msgs ∧ m.id = msgId ∧ m.sender = userId ∧
          m2 = { m with content := content, isEdited := true, editedAt := some now } ∧
          m2.sender = m.sender ∧ m2.recipient = m.recipient ∧
          m2.timestamp = m.timestamp ∧ m2.status = m.status) ∧
    ((∀ m ∈ msgs, ¬ (m.id = msgId ∧ m.sender = userId)) →
        editMessage msgs msgId userId content now
          = .error "Message not found or not authorized") := by
  constructor
  · intro st2 m2 hok
    rw [editMessage] at hok
    cases hfind : msgs.find? (fun m => m.id == msgId && m.sender == userId) with
    | none => rw [hfind] at hok; cases hok
    | some m =>
        rw [hfind] at hok
        have hpred := List.find?_some hfind
        rw [Bool.and_eq_true, beq_iff_eq, beq_iff_eq] at hpred
        have hmem := List.mem_of_find?_eq_some hfind
        have hm2 : m2 = { m with content := content, isEdited := true, editedAt := some now } := by
          cases hok
          rfl
        exact ⟨m, hmem, hpred.1, hpred.2, hm2, by rw [hm2], by rw [hm2], by rw [hm2], by rw [hm2]⟩
  · intro h
    rw [editMessage]
    have hnone : msgs.find? (fun m => m.id == msgId && m.sender == userId) = none := by
      rw [List.find?_eq_none]
      intro m hm
      have hne := h m hm
      rw [Bool.not_eq_true, Bool.eq_false_iff]
      intro hc
      rw [Bool.and_eq_true, beq_iff_eq, beq_iff_eq] at hc
      exact hne hc
    rw [hnone]

/-- C8 witness: the sender (user 1) successfully edits message 7 and the
frame condition holds at that concrete edit; the recipient (user 2) fails. -/
theorem c8_edit_authorization_and_frame_witness :
    (∃ m, m ∈ [mX] ∧ m.id = 7 ∧ m.sender = 1 ∧
        mXed = { m with content := "y", isEdited := true, editedAt := some 20 } ∧
        mXed.sender = m.sender ∧ mXed.recipient = m.recipient ∧
        mXed.timestamp = m.timestamp ∧ mXed.status = m.status) ∧
    editMessage [mX] 7 2 "y" 20 = .error "Message not found or not authorized" :=
  ⟨(c8_edit_authorization_and_frame [mX] 7 1 "y" 20).1 [mXed] mXed (by decide),
   (c8_edit_authorization_and_frame [mX] 7 2 "y" 20).2 (by decide)⟩

/-- C9 counterexample. User 2 soft-deletes message 7 twice. The second call is
NOT a state no-op: the `deletedFor` array has no duplicate check and grows to
`[2, 2]`. -/
theorem c9_not_idempotent_cex :
    deleteMessage [mX] 7 2 false = .ok ([mXdel], []) ∧
    deleteMessage [mXdel] 7 2 false = .ok ([mXdel2], []) ∧
    mXdel2 ≠ mXdel := by
  decide

/-- C9 amended. After `deleteForSelf(m, A)` (the delete-for-me branch), no
page of A's history contains a message with m's id, while the updated message
is still in B's history filter; no document's global-delete flag changes. A
REPEATED `deleteForSelf(m, A)` is not a state no-op: it succeeds again and
appends a duplicate entry to the soft-delete set, a strictly different
record. -/
theorem c9_delete_for_self_views (msgs : List Msg) (msgId a b : Nat) (m : Msg)
    (hfind : findById msgs msgId = some m)
    (hsend : m.sender = b) (hrec : m.recipient = a)
    (hnd : m.isDeleted = false)
    (hbd : ¬ b ∈ m.deletedFor) (hba : b ≠ a) :
    deleteMessage msgs msgId a false =
      .ok (updateById msgs msgId
        (fun x => { x with deletedFor := x.deletedFor ++ [a] }), []) ∧
    (∀ page x, x ∈ historyQuery a b page
        (updateById msgs msgId (fun x => { x with deletedFor := x.deletedFor ++ [a] })) →
        x.id ≠ msgId) ∧
    { m with deletedFor := m.deletedFor ++ [a] } ∈ messagesQueryFilter b a
      (updateById msgs msgId (fun x => { x with deletedFor := x.deletedFor ++ [a] })) ∧
    (updateById msgs msgId
        (fun x => { x with deletedFor := x.deletedFor ++ [a] })).map (·.isDeleted)
      = msgs.map (·.isDeleted) ∧
    deleteMessage (updateById msgs msgId
        (fun x => { x with deletedFor := x.deletedFor ++ [a] })) msgId a false =
      .ok (updateById (updateById msgs msgId
            (fun x => { x with deletedFor := x.deletedFor ++ [a] })) msgId
          (fun x => { x with deletedFor := x.deletedFor ++ [a] }), []) ∧
    findById (updateById (updateById msgs msgId
          (fun x => { x with deletedFor := x.deletedFor ++ [a] })) msgId
        (fun x => { x with deletedFor := x.deletedFor ++ [a] })) msgId
      = some { m with deletedFor := (m.deletedFor ++ [a]) ++ [a] } ∧
    { m with deletedFor := (m.deletedFor ++ [a]) ++ [a] }
      ≠ { m with deletedFor := m.deletedFor ++ [a] } := by
  have hfid : ∀ x : Msg, ({ x with deletedFor := x.deletedFor ++ [a] } : Msg).id = x.id :=
    fun x => rfl
  have hmid : m.id = msgId := by
    have := List.find?_some hfind
    simpa using this
  have hmem : m ∈ msgs := List.mem_of_find?_eq_some hfind
  have hfind1 : findById (updateById msgs msgId
      (fun x => { x with deletedFor := x.deletedFor ++ [a] })) msgId
      = some { m with deletedFor := m.deletedFor ++ [a] } := by
    rw [findById_updateById msgs msgId
      (fun x => { x with deletedFor := x.deletedFor ++ [a] }) hfid, hfind]
    rfl
  refine ⟨?_, ?_, ?_, ?_, ?_, ?_, ?_⟩
  · rw [deleteMessage, hfind]
    simp
  · intro page x hx hxid
    obtain ⟨hxm, hmatch, hvis⟩ := mem_of_mem_historyQuery hx
    rw [updateById] at hxm
    obtain ⟨y, hy, hgy⟩ := List.mem_map.mp hxm
    by_cases hyid : y.id = msgId
    · rw [if_pos hyid] at hgy
      rw [visibleInQuery, ← hgy] at hvis
      rw [Bool.and_eq_true] at hvis
      have hcont := hvis.2
      simp at hcont
    · rw [if_neg hyid] at hgy
      exact hyid (by rw [hgy]; exact hxid)
  · rw [messagesQueryFilter, List.mem_filter]
    constructor
    · rw [updateById]
      have hg : (if m.id = msgId then
          ({ m with deletedFor := m.deletedFor ++ [a] } : Msg) else m)
          = { m with deletedFor := m.deletedFor ++ [a] } := if_pos hmid
      exact hg ▸ List.mem_map_of_mem _ hmem
    · rw [Bool.and_eq_true]
      constructor
      · simp [matchPair, hsend, hrec]
      · rw [visibleInQuery]
        have h1 : ({ m with deletedFor := m.deletedFor ++ [a] } : Msg).isDeleted = false := hnd
        have h2 : (({ m with deletedFor := m.deletedFor ++ [a] } : Msg).deletedFor.contains b)
            = false := by
          have hnotin : ¬ b ∈ m.deletedFor ++ [a] := by
            rw [List.mem_append, List.mem_singleton]
            rintro (hc | hc)
            · exact hbd hc
            · exact hba hc
          simpa using hnotin
        rw [h1, h2]
        rfl
  · exact map_isDeleted_updateById msgs msgId
      (fun x => { x with deletedFor := x.deletedFor ++ [a] }) (fun x => rfl)
  · rw [deleteMessage, hfind1]
    simp
  · rw [findById_updateById _ msgId
      (fun x => { x with deletedFor := x.deletedFor ++ [a] }) hfid, hfind1]
    rfl
  · intro h
    have hdf := congrArg Msg.deletedFor h
    have hlen := congrArg List.length hdf
    simp [List.length_append] at hlen

/-- C9 witness: user 2 soft-deletes message 7 (sent by user 1 to user 2); the
amended statement instantiated there. -/
theorem c9_delete_for_self_views_witness :
    deleteMessage [mX] 7 2 false =
      .ok (updateById [mX] 7
        (fun x => { x with deletedFor := x.deletedFor ++ [2] }), []) ∧
    { mX with deletedFor := mX.deletedFor ++ [2] } ∈ messagesQueryFilter 1 2
      (updateById [mX] 7 (fun x => { x with deletedFor := x.deletedFor ++ [2] })) ∧
    { mX with deletedFor := (mX.deletedFor ++ [2]) ++ [2] }
      ≠ { mX with deletedFor := mX.deletedFor ++ [2] } :=
  ⟨(c9_delete_for_self_views [mX] 7 2 1 mX (by decide) rfl rfl rfl (by decide) (by decide)).1,
   (c9_delete_for_self_views [mX] 7 2 1 mX (by decide) rfl rfl rfl (by decide) (by decide)).2.2.1,
   (c9_delete_for_self_views [mX] 7 2 1 mX (by decide) rfl rfl rfl (by decide) (by decide)).2.2.2.2.2.2⟩

/-- C10. The socket handlers of the main server use only the client-supplied
payload: `join` places any socket in any user's room with no credential
check; `send_message` persists a message whose `sender` field is the
payload's `senderId`, and the resulting store is identical whichever socket
sent it; `messages_read` applies the payload's `readerId` the same way for
any two sockets. No identity is bound to the connection, so two connections
with the same payload produce identical stored state. -/
theorem c10_handlers_trust_payload :
    (∀ (rooms : RoomState) (c : SockConn) (uid : Nat),
        handleJoin rooms c uid = (c.sid, uid) :: rooms) ∧
    (∀ (msgs : List Msg) (c1 c2 : SockConn) (p : SendPayload) (id now : Nat),
        (handleSendMessage msgs c1 p id now).1 = (handleSendMessage msgs c2 p id now).1) ∧
    (∀ (msgs : List Msg) (c : SockConn) (p : SendPayload) (id now : Nat),
        (handleSendMessage msgs c p id now).1 = msgs ++ [mkMessage p id now] ∧
        (mkMessage p id now).sender = p.senderId) ∧
    (∀ (msgs : List Msg) (c1 c2 : SockConn) (p : ReadPayload),
        (handleMessagesRead msgs c1 p).1 = (handleMessagesRead msgs c2 p).1) :=
  ⟨fun _ _ _ => rfl, fun _ _ _ _ _ _ => rfl, fun _ _ _ _ _ => ⟨rfl, rfl⟩,
   fun _ _ _ _ => rfl⟩

end Gram
